import Mathlib

/-!
Verification of the location/region resolution pipeline of the Climate
Hazard Explorer repository: the text normalizers (`api/iso_map.py`,
`api/thinkhazard.py`), the division matcher (`api/thinkhazard.py`), the
region fuzzy matcher (`api/iso_map.py`), the region-code resolver and the
candidate-cascade fetch (`pages/2_Hazard Levels.py`,
`pages/3_Comparison_Tool.py`), and the time-series query normalization
(`api/cie.py`).

Python strings are modelled as `List Char`.  External library behaviour
(Python's `unicodedata`, `str` methods, `rapidfuzz.fuzz.token_sort_ratio`,
`pandas` column operations) is modelled by concrete executable functions,
restricted to the ASCII/Latin repertoire the data uses; similarity scores
are exact integer fractions.  Network responses are parameters of an environment
structure, so every repository function becomes a pure function of the
environment and its arguments.
-/

/-- Python strings in this development are lists of characters. -/
abbrev LChar := List Char

/-- ASCII decimal digit test, as Python's `str.isdigit` sees single ASCII chars. -/
def isAsciiDigitB (c : Char) : Bool := 48 ≤ c.toNat && c.toNat ≤ 57

/-- ASCII letter test; models Python's `str.isalpha` on the ASCII range. -/
def isAsciiAlphaB (c : Char) : Bool :=
  (65 ≤ c.toNat && c.toNat ≤ 90) || (97 ≤ c.toNat && c.toNat ≤ 122)

/-- ASCII whitespace test; models the whitespace set stripped by Python's `str.strip`. -/
def isSpaceB (c : Char) : Bool :=
  c = ' ' || c = '\t' || c = '\n' || c = '\r'

/-- Models Python `str.strip()`: drop leading and trailing whitespace. -/
def pyStrip (s : LChar) : LChar :=
  ((s.dropWhile isSpaceB).reverse.dropWhile isSpaceB).reverse

/-- Models Python `str.upper()` on the ASCII range (character-wise). -/
def pyUpper (s : LChar) : LChar := s.map Char.toUpper

/-- Models Python `str.lower()` on the ASCII range (character-wise). -/
def pyLower (s : LChar) : LChar := s.map Char.toLower

/-- Models Python `str.isdigit()`: non-empty and all characters decimal digits. -/
def pyIsDigitL (s : LChar) : Bool := !s.isEmpty && s.all isAsciiDigitB

/-- Does `s` start with `pat`? -/
def startsWith : LChar → LChar → Bool
  | _, [] => true
  | [], _ :: _ => false
  | a :: as, b :: bs => a = b && startsWith as bs

/-- Worker for `pyReplace`, structurally recursive on a fuel argument (the
fuel never runs out when it starts at the length of the string, because
every step consumes at least one character). -/
def pyReplaceAux (old new : LChar) : Nat → LChar → LChar
  | _, [] => []
  | 0, s => s
  | fuel + 1, a :: t =>
    if old ≠ [] ∧ startsWith (a :: t) old then
      new ++ pyReplaceAux old new fuel ((a :: t).drop old.length)
    else
      a :: pyReplaceAux old new fuel t

/-- Models Python `str.replace(old, new)` for a non-empty `old`: replace all
non-overlapping occurrences left to right (identity when `old` is empty,
a case the embedded code never exercises). -/
def pyReplace (s old new : LChar) : LChar := pyReplaceAux old new s.length s

/-- Models Python substring membership `pat in s`. -/
def hasSegment : LChar → LChar → Bool
  | [], pat => startsWith [] pat
  | c :: t, pat => startsWith (c :: t) pat || hasSegment t pat

/-- Models Python `s.split("-", 1)[1]`: everything after the first hyphen. -/
def afterFirstDash : LChar → LChar
  | [] => []
  | c :: cs => if c = '-' then cs else afterFirstDash cs

/-- Models Python `s.split("-")`: split on every hyphen. -/
def splitDash : LChar → List LChar
  | [] => [[]]
  | c :: cs =>
    match splitDash cs with
    | [] => [[]]
    | h :: t => if c = '-' then [] :: h :: t else (c :: h) :: t

/-- Models Python's first-occurrence de-duplication loop
(`seen = set(); uniq = []; ...`) used by the candidate cascade. -/
def pyDedupAux : List LChar → List LChar → List LChar
  | _, [] => []
  | seen, c :: cs =>
    if c ∈ seen then pyDedupAux seen cs else c :: pyDedupAux (c :: seen) cs

/-- First-occurrence de-duplication of a list of strings. -/
def pyDedup (l : List LChar) : List LChar := pyDedupAux [] l

/-- A Python float value of the pipeline, kept as an exact fraction
`num / den` with `den` positive by construction.  Every value the code
computes (similarity scores, series values) is a small rational, which a
double represents faithfully for the comparisons the code performs, so
exact fractions model the float arithmetic. -/
structure PyFloat where
  num : Int
  den : Int
deriving DecidableEq

/-- Embed a Python int as a float value. -/
def PyFloat.ofInt (n : Int) : PyFloat := ⟨n, 1⟩

/-- Comparison `a <= b` of float values (cross-multiplication; dens positive). -/
def fle (a b : PyFloat) : Bool := decide (a.num * b.den ≤ b.num * a.den)

/-- Addition of an int to a float value (the bias bonus). -/
def faddInt (a : PyFloat) (n : Int) : PyFloat := ⟨a.num + n * a.den, a.den⟩

/-- Addition of float values (the pandas sum). -/
def fadd (a b : PyFloat) : PyFloat := ⟨a.num * b.den + b.num * a.den, a.den * b.den⟩

/-- Absolute value of a float value. -/
def fabs (a : PyFloat) : PyFloat := ⟨|a.num|, a.den⟩

/-- Equality of a float value with zero (`== 0`). -/
def fIsZero (a : PyFloat) : Bool := decide (a.num = 0)

/-- Models Python `int(x)` on a float: truncation toward zero. -/
def pyIntTrunc (a : PyFloat) : Int :=
  if 0 ≤ a.num then ((a.num.toNat / a.den.toNat : Nat) : Int)
  else -(((-a.num).toNat / a.den.toNat : Nat) : Int)

/-- Stable descending insertion (earlier elements first on equal keys);
models Python's stable `list.sort(key=..., reverse=True)`. -/
def insertDescBy (key : α → PyFloat) (x : α) : List α → List α
  | [] => [x]
  | y :: ys => if fle (key y) (key x) then x :: y :: ys else y :: insertDescBy key x ys

/-- Stable descending sort by a float key; models Python's stable
`list.sort(key=..., reverse=True)`. -/
def sortDescBy (key : α → PyFloat) : List α → List α
  | [] => []
  | x :: xs => insertDescBy key x (sortDescBy key xs)

/-- Models `unicodedata.normalize("NFKD", ...)` character decomposition for
the Latin letters with diacritics that the admin datasets use; other
characters decompose to themselves. -/
def nfkdChar (c : Char) : LChar :=
  if c = 'á' then ['a', '́'] else if c = 'à' then ['a', '̀']
  else if c = 'â' then ['a', '̂'] else if c = 'ä' then ['a', '̈']
  else if c = 'ã' then ['a', '̃'] else if c = 'å' then ['a', '̊']
  else if c = 'é' then ['e', '́'] else if c = 'è' then ['e', '̀']
  else if c = 'ê' then ['e', '̂'] else if c = 'ë' then ['e', '̈']
  else if c = 'í' then ['i', '́'] else if c = 'ì' then ['i', '̀']
  else if c = 'î' then ['i', '̂'] else if c = 'ï' then ['i', '̈']
  else if c = 'ó' then ['o', '́'] else if c = 'ò' then ['o', '̀']
  else if c = 'ô' then ['o', '̂'] else if c = 'ö' then ['o', '̈']
  else if c = 'õ' then ['o', '̃'] else if c = 'ú' then ['u', '́']
  else if c = 'ù' then ['u', '̀'] else if c = 'û' then ['u', '̂']
  else if c = 'ü' then ['u', '̈'] else if c = 'ý' then ['y', '́']
  else if c = 'ñ' then ['n', '̃'] else if c = 'ç' then ['c', '̧']
  else if c = 'Á' then ['A', '́'] else if c = 'É' then ['E', '́']
  else if c = 'Í' then ['I', '́'] else if c = 'Ó' then ['O', '́']
  else if c = 'Ú' then ['U', '́'] else if c = 'Ü' then ['U', '̈']
  else if c = 'Ñ' then ['N', '̃'] else if c = 'Ç' then ['C', '̧']
  else [c]

/-- NFKD decomposition of a whole string. -/
def nfkdL (s : LChar) : LChar := s.flatMap nfkdChar

/-- Models `unicodedata.combining(ch) != 0`: the combining diacritical block. -/
def combiningB (c : Char) : Bool := 768 ≤ c.toNat && c.toNat ≤ 879

/-- The string normalizer of `api/iso_map.py` on a string argument:
NFKD decomposition, drop combining marks, lower-case, then strip. -/
def normIso (s : LChar) : LChar :=
  pyStrip (pyLower ((nfkdL s).filter (fun c => !combiningB c)))

/-- The string normalizer of `api/thinkhazard.py` on a string argument:
NFKD decomposition, drop non-ASCII (`encode("ascii","ignore")`), strip,
then lower-case. -/
def normTh (s : LChar) : LChar :=
  pyLower (pyStrip ((nfkdL s).filter (fun c => c.toNat ≤ 127)))

/-- Models Python `str.split()`: split on whitespace runs, no empty tokens. -/
def splitWsAux : LChar → LChar → List LChar
  | [], acc => if acc = [] then [] else [acc.reverse]
  | c :: cs, acc =>
    if isSpaceB c then
      (if acc = [] then splitWsAux cs [] else acc.reverse :: splitWsAux cs [])
    else splitWsAux cs (c :: acc)

/-- Whitespace tokenization of a string. -/
def splitWs (s : LChar) : List LChar := splitWsAux s []

/-- Code-point lexicographic comparison of strings (Python string `<=`). -/
def lexLe : LChar → LChar → Bool
  | [], _ => true
  | _ :: _, [] => false
  | a :: as, b :: bs => if a = b then lexLe as bs else decide (a.toNat < b.toNat)

/-- Stable ascending insertion of a token. -/
def insertTokAsc (x : LChar) : List LChar → List LChar
  | [] => [x]
  | y :: ys => if lexLe x y then x :: y :: ys else y :: insertTokAsc x ys

/-- Stable ascending sort of tokens. -/
def sortTokens : List LChar → List LChar
  | [] => []
  | x :: xs => insertTokAsc x (sortTokens xs)

/-- Join tokens with single spaces. -/
def joinSpace : List LChar → LChar
  | [] => []
  | [t] => t
  | t :: ts => t ++ ' ' :: joinSpace ts

/-- The token-sort preprocessing of `rapidfuzz.fuzz.token_sort_ratio`:
tokenize on whitespace, sort tokens, join with spaces. -/
def tokenSortPrep (s : LChar) : LChar := joinSpace (sortTokens (splitWs s))

/-- Worker for the longest-common-subsequence length, structurally
recursive on a fuel argument (total lengths shrink by at least one per
step, so fuel `|a| + |b|` never runs out). -/
def lcsAux : Nat → LChar → LChar → Nat
  | _, [], _ => 0
  | _, _ :: _, [] => 0
  | 0, _, _ => 0
  | fuel + 1, a :: as, b :: bs =>
    if a = b then 1 + lcsAux fuel as bs
    else max (lcsAux fuel (a :: as) bs) (lcsAux fuel as (b :: bs))

/-- Longest common subsequence length (the basis of the InDel similarity). -/
def lcsN (a b : LChar) : Nat := lcsAux (a.length + b.length) a b

/-- Models `rapidfuzz` normalized InDel similarity (`fuzz.ratio`) as an exact
rational on a 0-100 scale: `200*LCS/(|a|+|b|)`, with 100 for two empty
strings. -/
def simScore (a b : LChar) : PyFloat :=
  if a.length + b.length = 0 then ⟨100, 1⟩
  else ⟨200 * (lcsN a b : Int), ((a.length : Int) + (b.length : Int))⟩

/-- Models `rapidfuzz.fuzz.token_sort_ratio` as an exact rational. -/
def tokenSortScore (a b : LChar) : PyFloat := simScore (tokenSortPrep a) (tokenSortPrep b)

/-- One entry of the ISO-3166-2 table of `api/iso_map.py` (`load_iso3166_2`):
`code` is present when the JSON "code" field is a string; `translations`
is present (with its values in order) when the "translations" field is a
dict. -/
structure IsoEntry where
  code : Option LChar
  name : LChar
  translations : Option (List LChar)
deriving DecidableEq

/-- `filter_country_entries` of `api/iso_map.py`: keep entries whose string
"code" starts with `<iso2>-`. -/
def filter_country_entries (iso2 : LChar) (entries : List IsoEntry) : List IsoEntry :=
  entries.filter (fun e =>
    match e.code with
    | some c => startsWith c (iso2 ++ ['-'])
    | none => false)

/-- Python dict assignment `d[k] = v`: overwrite in place, else append. -/
def dictSetPy (d : List (LChar × LChar)) (k v : LChar) : List (LChar × LChar) :=
  if d.any (fun p => p.1 = k) then d.map (fun p => if p.1 = k then (k, v) else p)
  else d ++ [(k, v)]

/-- Python dict update `d[k] += suf` for an existing key. -/
def dictAppendVal (d : List (LChar × LChar)) (k suf : LChar) : List (LChar × LChar) :=
  d.map (fun p => if p.1 = k then (p.1, p.2 ++ suf) else p)

/-- The `aliases` dict comprehension of `fuzzy_match_region`:
`(aliases = code -> name)` over the filtered entries, insertion-ordered. -/
def aliasesInit (entries : List IsoEntry) : List (LChar × LChar) :=
  entries.foldl
    (fun d e =>
      match e.code with
      | some c => dictSetPy d c e.name
      | none => d)
    []

/-- The translations loop of `fuzzy_match_region`: append `" " + val` for
every translation value of every entry to its code's alias string. -/
def fuzzy_aliases (entries : List IsoEntry) : List (LChar × LChar) :=
  entries.foldl
    (fun d e =>
      match e.translations with
      | some vals => vals.foldl (fun d2 v => dictAppendVal d2 (e.code.getD []) (' ' :: v)) d
      | none => d)
    (aliasesInit entries)

/-- The scoring loop of `fuzzy_match_region`: score each alias string with
the token-sort similarity against the normalized query and keep the tuples
whose RAW score meets the threshold (the bias is applied afterwards). -/
def fuzzy_scored_raw (entries : List IsoEntry) (q : LChar) (threshold : Int) :
    List (LChar × LChar × PyFloat) :=
  (fuzzy_aliases entries).filterMap (fun p =>
    let s := tokenSortScore q (normIso p.2)
    if fle (PyFloat.ofInt threshold) s then some (p.1, pyStrip p.2, s) else none)

/-- The generic region keywords of the `_bias` helper. -/
def regionKeywords : List LChar :=
  ["region".data, "province".data, "state".data, "governorate".data, "metropolitan".data]

/-- The finer-grained keywords of the `_bias` helper. -/
def fineKeywords : List LChar :=
  ["district".data, "county".data, "municipality".data]

/-- The `_bias` helper of `fuzzy_match_region`: +5 for a generic region
keyword in the (lower-cased) comparison string, -5 for a finer-grained
keyword. -/
def biasScore (nm : LChar) (score : PyFloat) : PyFloat :=
  let nml := pyLower nm
  let b1 : Int := if regionKeywords.any (fun k => hasSegment nml k) then 5 else 0
  let b2 : Int := if fineKeywords.any (fun k => hasSegment nml k) then -5 else 0
  faddInt score (b1 + b2)

/-- The biased, truncated-to-int tuple of `fuzzy_match_region`. -/
def biasTuple (t : LChar × LChar × PyFloat) : LChar × LChar × PyFloat :=
  (t.1, t.2.1, PyFloat.ofInt (pyIntTrunc (biasScore t.2.1 t.2.2)))

/-- The fallback ranking of `fuzzy_match_region`: unbiased scores of all the
country's entries, sorted descending. -/
def fuzzy_rough (entries : List IsoEntry) (q : LChar) : List (LChar × LChar × PyFloat) :=
  sortDescBy (fun t => t.2.2)
    (entries.map (fun e => (e.code.getD [], e.name, tokenSortScore q (normIso e.name))))

/-- `fuzzy_match_region` of `api/iso_map.py`.  The globally loaded ISO table
(`load_iso3166_2`) is the `entries` parameter.  Returns `(code, name, score)`
tuples: biased truncated scores on the threshold path, raw scores on the
top-3 fallback path. -/
def fuzzy_match_region (entries : List IsoEntry) (name country_iso2 : LChar)
    (threshold : Int) : List (LChar × LChar × PyFloat) :=
  let entriesF := filter_country_entries country_iso2 entries
  let q := normIso name
  if q = [] ∨ entriesF = [] then []
  else
    let scored :=
      sortDescBy (fun t => t.2.2) ((fuzzy_scored_raw entriesF q threshold).map biasTuple)
    if scored = [] then (fuzzy_rough entriesF q).take 3
    else scored

/-- `_norm` of `api/thinkhazard.py` applied to a cell value: non-string
cells (pandas NaN) normalize to the empty string. -/
def norm_th_val : Option LChar → LChar
  | some s => normTh s
  | none => []

/-- One row of an administrative table, as `_search_level` reads it: only
the name cell matters for matching (`none` models a non-string cell). -/
structure ThRow where
  name : Option LChar
deriving DecidableEq

/-- One administrative table (`adm0`/`adm1`/`adm2` dataframe):
`hasNameCol` models whether the level's name column is present. -/
structure LevelTable where
  hasNameCol : Bool
  rows : List ThRow
deriving DecidableEq

/-- A row returned by `_search_level`: the original row plus the `level`
column it adds. -/
structure HitRow where
  row : ThRow
  level : LChar
deriving DecidableEq

/-- The three cached administrative tables of `load_admin_data`. -/
structure EnvTh where
  adm0 : LevelTable
  adm1 : LevelTable
  adm2 : LevelTable
deriving DecidableEq

/-- `_search_level` of `api/thinkhazard.py`: empty when the name column is
missing; otherwise the rows whose normalized name equals the query
(`exact`) or contains it (`pandas str.contains`; modelled as substring
containment, which is what it computes for queries free of regex
metacharacters), each labelled with the level. -/
def search_level (t : LevelTable) (lvl : LChar) (q : LChar) (exact : Bool) : List HitRow :=
  if t.hasNameCol = false then []
  else
    (t.rows.filter (fun r =>
      if exact then norm_th_val r.name = q
      else hasSegment (norm_th_val r.name) q)).map (fun r => ⟨r, lvl⟩)

/-- The first non-empty result of a sequence of level searches (the
`for ...: if not hit.empty: return hit` loop). -/
def firstHit : List (List HitRow) → List HitRow
  | [] => []
  | h :: t => if h = [] then firstHit t else h

/-- `find_division` of `api/thinkhazard.py`: exact matching at
ADM2, ADM1, ADM0 in that order, then substring matching in the same
order. -/
def find_division (env : EnvTh) (name : LChar) : List HitRow :=
  let q := normTh name
  match firstHit [search_level env.adm2 "ADM2".data q true,
                  search_level env.adm1 "ADM1".data q true,
                  search_level env.adm0 "ADM0".data q true] with
  | [] =>
    firstHit [search_level env.adm2 "ADM2".data q false,
              search_level env.adm1 "ADM1".data q false,
              search_level env.adm0 "ADM0".data q false]
  | r => r

/-- One row of the ADM0 country table as the iso lookups read it. -/
structure Adm0Row where
  ADM0_NAME : LChar
  ISO3166_a3 : LChar
  ISO3166_a2 : LChar
deriving DecidableEq

/-- `adm0_iso3_by_name` of `api/thinkhazard.py`: first row whose
lower-cased ADM0 name equals the lower-cased argument. -/
def adm0_iso3_by_name (t : List Adm0Row) (nm : LChar) : Option LChar :=
  match t.filter (fun r => pyLower r.ADM0_NAME = pyLower nm) with
  | [] => none
  | r :: _ => some r.ISO3166_a3

/-- `adm0_iso2_by_iso3` of `api/thinkhazard.py`: first row whose
upper-cased ISO3 equals the upper-cased argument. -/
def adm0_iso2_by_iso3 (t : List Adm0Row) (iso3 : LChar) : Option LChar :=
  match t.filter (fun r => pyUpper r.ISO3166_a3 = pyUpper iso3) with
  | [] => none
  | r :: _ => some r.ISO3166_a2

/-- The query parameters `get_cie_band` of `api/cie.py` sends to the
time-series provider, in source order. -/
structure CieParams where
  iso : LChar
  region : LChar
  scenario : LChar
  varId : LChar
  season : LChar
  aggregationSpatial : LChar
  fmt : LChar
deriving DecidableEq

/-- The region normalization of `get_cie_band`:
`str(region).replace("-", ".").upper().strip()`. -/
def cie_region_norm (region : LChar) : LChar :=
  pyStrip (pyUpper (pyReplace region ['-'] ['.']))

/-- Build the provider query parameters of `get_cie_band`. -/
def cie_params (iso region varId scenario season agg : LChar) : CieParams :=
  ⟨iso, cie_region_norm region, scenario, varId, season, agg, "json".data⟩

/-- One parsed row of a time-series dataframe; `none` models NaN. -/
structure DfRow where
  year : Option PyFloat
  lower : Option PyFloat
  median : Option PyFloat
  upper : Option PyFloat
deriving DecidableEq

/-- A parsed time-series dataframe. -/
abbrev Df := List DfRow

/-- One record of the list-of-records JSON shape: each field is `some v`
when the key is present (`v = none` when its value is not numeric). -/
structure RecordRow where
  timeF : Option (Option PyFloat)
  yearF : Option (Option PyFloat)
  lowerF : Option (Option PyFloat)
  medianF : Option (Option PyFloat)
  upperF : Option (Option PyFloat)
deriving DecidableEq

/-- A JSON dict response of the time-series provider: the four columnar
fields (`none` when absent or not a list; element `none` when not
float-convertible) and the optional "data" record list. -/
structure CieDict where
  yearL : Option (List (Option PyFloat))
  lowerL : Option (List (Option PyFloat))
  medianL : Option (List (Option PyFloat))
  upperL : Option (List (Option PyFloat))
  dataL : Option (List RecordRow)

/-- A provider response as `get_cie_band` distinguishes them: a transport
or HTTP failure, a JSON dict, or any non-dict JSON value. -/
inductive CieResponse where
  | failure
  | dictResp (d : CieDict)
  | nondict

/-- `to_float_list` of `get_cie_band` on a field: `[]` when not a list. -/
def toFloatList : Option (List (Option PyFloat)) → List (Option PyFloat)
  | none => []
  | some l => l

/-- Ascending year comparison with missing years last
(pandas `sort_values` default `na_position="last"`). -/
def yearLeB : Option PyFloat → Option PyFloat → Bool
  | none, none => true
  | none, some _ => false
  | some _, none => true
  | some a, some b => fle a b

/-- Stable insertion for the year sort. -/
def insertRowAsc (x : DfRow) : Df → Df
  | [] => [x]
  | y :: ys => if yearLeB x.year y.year then x :: y :: ys else y :: insertRowAsc x ys

/-- `df.sort_values("year")`, modelled as a stable ascending sort. -/
def sortRowsByYear : Df → Df
  | [] => []
  | x :: xs => insertRowAsc x (sortRowsByYear xs)

/-- `df.dropna(how="all", subset=["median","lower","upper"])`. -/
def dropnaAll3 (df : Df) : Df :=
  df.filter (fun r => !(r.median = none && r.lower = none && r.upper = none))

/-- Right-pad a columnar field with NaN to the maximum length. -/
def padTo (n : Nat) (l : List (Option PyFloat)) : List (Option PyFloat) :=
  l ++ List.replicate (n - l.length) none

/-- The columnar branch of `get_cie_band`: pad the four arrays, zip them
into rows, drop all-missing rows, sort by year. -/
def columnarDf (d : CieDict) : Df :=
  let years := toFloatList d.yearL
  let lower := toFloatList d.lowerL
  let median := toFloatList d.medianL
  let upper := toFloatList d.upperL
  let maxlen := max (max years.length lower.length) (max median.length upper.length)
  let py := padTo maxlen years
  let pl := padTo maxlen lower
  let pm := padTo maxlen median
  let pu := padTo maxlen upper
  sortRowsByYear (dropnaAll3
    ((List.range maxlen).map (fun i => ⟨py.getD i none, pl.getD i none, pm.getD i none, pu.getD i none⟩)))

/-- The list-of-records branch of `get_cie_band`: rename "time" to "year",
coerce the four columns, drop all-missing rows, sort by year.  When both a
"time" and a "year" column exist, the rename makes the column label
ambiguous and pandas raises, which the error value models. -/
def recordsDf (recs : List RecordRow) : Except Unit Df :=
  let hasTime := recs.any (fun r => r.timeF.isSome)
  let hasYear := recs.any (fun r => r.yearF.isSome)
  if hasTime && hasYear then .error ()
  else .ok (sortRowsByYear (dropnaAll3 (recs.map (fun r =>
    ⟨(if hasTime then r.timeF else r.yearF).getD none,
     r.lowerF.getD none, r.medianF.getD none, r.upperF.getD none⟩))))

/-- `get_cie_band` of `api/cie.py`, given the provider's response function:
transport failures and unexpected shapes yield the empty dataframe; a
raised pandas error is the `.error` value (callers catch it). -/
def get_cie_band (resp : CieParams → CieResponse) (iso region varId scenario : LChar) :
    Except Unit Df :=
  let p := cie_params iso region varId scenario "annual".data "area".data
  match resp p with
  | .failure => .ok []
  | .nondict => .ok []
  | .dictResp d =>
    let years := toFloatList d.yearL
    let lower := toFloatList d.lowerL
    let median := toFloatList d.medianL
    let upper := toFloatList d.upperL
    if years ≠ [] ∨ lower ≠ [] ∨ median ≠ [] ∨ upper ≠ [] then .ok (columnarDf d)
    else
      match d.dataL with
      | some recs => recordsDf recs
      | none => .ok []

/-- `is_all_zero` of `pages/2_Hazard Levels.py` for dataframes carrying the
median column (the source returns False when the column is missing): some
median value is present and the absolute values sum to zero (pandas `sum`
skips NaN). -/
def is_all_zero (df : Df) : Bool :=
  df.any (fun r => r.median.isSome) &&
    fIsZero (df.foldl (fun a r => fadd a (fabs (r.median.getD (PyFloat.ofInt 0)))) (PyFloat.ofInt 0))

/-- Python `a or b` on strings: first operand when non-empty. -/
def pyOr (a b : LChar) : LChar := if a = [] then b else a

/-- The environment of the page code: the cached ADM0 table, the cached
ISO-3166-2 table, the time-series provider, and the extracted shape codes
per country (the parsed result of `fetch_cie_shape_codes`). -/
structure Env where
  adm0 : List Adm0Row
  isoEntries : List IsoEntry
  cieResponse : CieParams → CieResponse
  shapeCodes : LChar → List LChar

/-- A selected administrative row as the pages read it
(`st.session_state["selected_row"]` dict): `none` models a missing key or
a non-string (NaN) value. -/
structure AdmRowDict where
  ISO3166_a3 : Option LChar
  ADM0_NAME : Option LChar
  ADM1_NAME : Option LChar
  ADM2_NAME : Option LChar
deriving DecidableEq

/-- Step 1 of `resolve_cie_region_code` (`pages/2_Hazard Levels.py`): the
row's ISO3 when it is a string with non-blank content, else the
country-name lookup. -/
def resolve_iso3 (env : Env) (r : AdmRowDict) : Option LChar :=
  match r.ISO3166_a3 with
  | some s => if pyStrip s = [] then adm0_iso3_by_name env.adm0 (r.ADM0_NAME.getD []) else some s
  | none => adm0_iso3_by_name env.adm0 (r.ADM0_NAME.getD [])

/-- The ISO2 value as `resolve_cie_region_code` stringifies it: the lookup
result, or the literal `"None"` that Python's f-string produces for a
failed lookup. -/
def resolve_iso2_str (env : Env) (iso3v : LChar) : LChar :=
  match adm0_iso2_by_iso3 env.adm0 iso3v with
  | some s => s
  | none => "None".data

/-- Step 3 of `resolve_cie_region_code`: the most specific available name
(`adm2 or adm1 or adm0`). -/
def resolve_best_name (r : AdmRowDict) : LChar :=
  pyOr (r.ADM2_NAME.getD []) (pyOr (r.ADM1_NAME.getD []) (r.ADM0_NAME.getD []))

/-- The 2-letter abbreviation helper of the resolver:
`"".join(ch for ch in name if ch.isalpha())[:2].upper()`. -/
def twoLetterAbbr (nm : LChar) : LChar := pyUpper ((nm.filter isAsciiAlphaB).take 2)

/-- `resolve_cie_region_code` of `pages/2_Hazard Levels.py`:
returns `(iso3, region code, error message)`. -/
def resolve_cie_region_code (env : Env) (r : AdmRowDict) :
    Option LChar × Option LChar × Option LChar :=
  match resolve_iso3 env r with
  | none => (none, none, some "Could not determine ISO3 code.".data)
  | some iso3v =>
    if iso3v = [] then (none, none, some "Could not determine ISO3 code.".data)
    else
      let iso2s := resolve_iso2_str env iso3v
      let best := resolve_best_name r
      let top := if best = [] then [] else fuzzy_match_region env.isoEntries best iso2s 80
      let fallbackCode :=
        let abbr := twoLetterAbbr best
        if abbr = [] then iso3v else iso2s ++ '.' :: abbr
      match top with
      | [] => (some iso3v, some fallbackCode, none)
      | t :: _ =>
        let rc := pyUpper t.1
        if rc = [] then (some iso3v, some fallbackCode, none)
        else
          let c1 := pyReplace rc ['-'] ['.']
          let suf := pyReplace c1 (iso2s ++ ['.']) []
          if pyIsDigitL suf then
            let abbr := twoLetterAbbr best
            if abbr = [] then (some iso3v, some c1, none)
            else (some iso3v, some (iso2s ++ '.' :: abbr), none)
          else (some iso3v, some c1, none)

/-- Does `cand` fully match the regex `[A-Z]{2}\.[A-Z0-9]{1,3}`? -/
def fullmatch2dot (cand : LChar) : Bool :=
  match cand with
  | a :: b :: '.' :: rest =>
    (65 ≤ a.toNat && a.toNat ≤ 90) && (65 ≤ b.toNat && b.toNat ≤ 90) &&
      decide (1 ≤ rest.length) && decide (rest.length ≤ 3) &&
      rest.all (fun c => (65 ≤ c.toNat && c.toNat ≤ 90) || isAsciiDigitB c)
  | _ => false

/-- Does `cand` fully match the regex `[A-Z]{2}`? -/
def fullmatch2 (cand : LChar) : Bool :=
  match cand with
  | [a, b] => (65 ≤ a.toNat && a.toNat ≤ 90) && (65 ≤ b.toNat && b.toNat ≤ 90)
  | _ => false

/-- `_normalize_region_code` of `pages/2_Hazard Levels.py` (the
`pages/3_Comparison_Tool.py` copy is identical), with `str(x or "")` of
each optional argument already applied. -/
def normalize_region_code (iso2 candidate fallback_name : LChar) : LChar :=
  let iso2u := pyUpper (pyStrip iso2)
  let fb := pyStrip fallback_name
  let cand := pyReplace (pyUpper (pyStrip candidate)) ['-'] ['.']
  let abbr := twoLetterAbbr fb
  if abbr ≠ [] then iso2u ++ '.' :: abbr
  else if fullmatch2dot cand then cand
  else if fullmatch2 cand then iso2u ++ '.' :: cand
  else iso2u

/-- The RegionInfo dict `build_region_info` returns. -/
structure RegionInfo where
  code : LChar
  country : LChar
  country_iso3 : LChar
  name : LChar
deriving DecidableEq

/-- `build_region_info` of `pages/2_Hazard Levels.py`: resolve, then
re-normalize the code through `_normalize_region_code` whenever it is
non-empty and differs from the ISO3 code.  A failed ISO2 lookup and the
empty string coincide downstream, so both are the empty string here. -/
def build_region_info (env : Env) (r : AdmRowDict) : RegionInfo :=
  let res := resolve_cie_region_code env r
  let iso3_val := res.1
  let region_code_val := res.2.1
  let iso2_val : LChar :=
    match iso3_val with
    | some i => if i = [] then [] else (adm0_iso2_by_iso3 env.adm0 i).getD []
    | none => []
  let region_code_val2 : Option LChar :=
    match region_code_val with
    | some c =>
      if c ≠ [] ∧ some c ≠ iso3_val then
        some (normalize_region_code iso2_val c (pyOr (r.ADM1_NAME.getD []) (r.ADM2_NAME.getD [])))
      else some c
    | none => none
  let nm := pyOr (r.ADM2_NAME.getD []) (pyOr (r.ADM1_NAME.getD []) (r.ADM0_NAME.getD []))
  ⟨(region_code_val2.getD []),
   iso2_val,
   (match iso3_val with | some i => pyOr i iso2_val | none => iso2_val),
   nm⟩

/-- The country code `load_cie` queries with: `country_iso3 or country_iso2`. -/
def hazard_country (info : RegionInfo) : LChar := pyOr info.country_iso3 info.country

/-- The candidate cascade of `load_cie` in `pages/2_Hazard Levels.py`,
before de-duplication, in generation order. -/
def hazard_candidates_raw (env : Env) (info : RegionInfo) : List LChar :=
  let region_code := info.code
  let country_iso2 := info.country
  let country_iso3 := info.country_iso3
  let country := pyOr country_iso3 country_iso2
  let abbr2 := (pyUpper (info.name.filter isAsciiAlphaB)).take 2
  let shape_codes := env.shapeCodes country_iso3
  (if region_code ≠ [] then
    region_code ::
      (if region_code.contains '-' then
        [afterFirstDash region_code, pyReplace region_code ['-'] ['.']]
      else [])
  else []) ++
  (if country_iso2 ≠ [] ∧ abbr2 ≠ [] then
    [country_iso2 ++ '-' :: abbr2, country_iso2 ++ '.' :: abbr2]
  else []) ++
  shape_codes ++
  (if country ≠ [] then [country] else []) ++
  (if country_iso2 ≠ [] ∧ country_iso2 ≠ country_iso3 then [country_iso2] else []) ++
  [[]]

/-- The de-duplicated candidate cascade of `load_cie`
(`pages/2_Hazard Levels.py`). -/
def hazard_candidates (env : Env) (info : RegionInfo) : List LChar :=
  pyDedup (hazard_candidates_raw env info)

/-- One `get_cie_band` call as the `load_cie` loop sees it: a raised
exception becomes the empty dataframe (`except Exception`). -/
def cie_fetch_df (env : Env) (iso region varId scenario : LChar) : Df :=
  match get_cie_band env.cieResponse iso region varId scenario with
  | .ok d => d
  | .error _ => []

/-- The fetch loop of `load_cie` in `pages/2_Hazard Levels.py`: try each
candidate in order, appending it to `tried`, and stop at the first
non-empty dataframe; when every candidate is exhausted, return the empty
dataframe with the first tried candidate (or the empty string). -/
def cie_try_loop (env : Env) (country varId scenario : LChar) :
    List LChar → List LChar → Df × LChar × List LChar
  | [], tried => ([], (tried.head?).getD [], tried)
  | c :: cs, tried =>
    let tried2 := tried ++ [c]
    let dfTry := cie_fetch_df env country c varId scenario
    if dfTry ≠ [] then (dfTry, c, tried2)
    else cie_try_loop env country varId scenario cs tried2

/-- `load_cie` of `pages/2_Hazard Levels.py`. -/
def load_cie_hazard (env : Env) (info : RegionInfo) (varP scenario : LChar) :
    Df × LChar × List LChar :=
  cie_try_loop env (hazard_country info) varP scenario (hazard_candidates env info) []

/-- The candidate cascade of `load_cie` in `pages/3_Comparison_Tool.py`:
same generation idea, but `split("-")[1]` instead of `split("-", 1)[1]`,
unconditional appends of the country and ISO2 codes, and NO
de-duplication. -/
def compare_candidates (env : Env) (info : RegionInfo) : List LChar :=
  let region_code := info.code
  let iso2 := info.country
  let iso3 := info.country_iso3
  let country := pyOr iso3 iso2
  let abbr2 := (pyUpper (info.name.filter isAsciiAlphaB)).take 2
  let shapes := env.shapeCodes iso3
  (if region_code ≠ [] then
    region_code ::
      (if region_code.contains '-' then
        [(splitDash region_code).getD 1 [], pyReplace region_code ['-'] ['.']]
      else [])
  else []) ++
  (if iso2 ≠ [] ∧ abbr2 ≠ [] then [iso2 ++ '-' :: abbr2, iso2 ++ '.' :: abbr2] else []) ++
  shapes ++ [country, iso2, []]

/-- The fetch loop of `load_cie` in `pages/3_Comparison_Tool.py`: as the
hazard-page loop, but exhaustion returns the empty string (not the first
tried candidate). -/
def compare_try_loop (env : Env) (country varId scenario : LChar) :
    List LChar → List LChar → Df × LChar × List LChar
  | [], tried => ([], [], tried)
  | c :: cs, tried =>
    let tried2 := tried ++ [c]
    let dfTry := cie_fetch_df env country c varId scenario
    if dfTry ≠ [] then (dfTry, c, tried2)
    else compare_try_loop env country varId scenario cs tried2

/-- `load_cie` of `pages/3_Comparison_Tool.py`. -/
def load_cie_compare (env : Env) (info : RegionInfo) (varP scenario : LChar) :
    Df × LChar × List LChar :=
  compare_try_loop env (pyOr info.country_iso3 info.country) varP scenario
    (compare_candidates env info) []

/-- A Python value for the normalizer contracts: a string, an int, or None. -/
inductive PyVal where
  | strV (s : LChar)
  | intV (n : Int)
  | noneV
deriving DecidableEq

/-- Python truthiness of a `PyVal`. -/
def pyTruthy : PyVal → Bool
  | .strV s => !s.isEmpty
  | .intV n => decide (n ≠ 0)
  | .noneV => false

/-- Is the value a Python string? -/
def isStrB : PyVal → Bool
  | .strV _ => true
  | _ => false

/-- `_norm` of `api/iso_map.py` on an arbitrary value: `s or ""` turns
falsy values into the empty string, but `unicodedata.normalize` raises
TypeError on any remaining non-string (the error value). -/
def norm_iso_py (v : PyVal) : Except Unit LChar :=
  let v2 := if pyTruthy v then v else .strV []
  match v2 with
  | .strV s => .ok (normIso s)
  | _ => .error ()

/-- `_norm` of `api/thinkhazard.py` on an arbitrary value: the isinstance
guard maps every non-string to the empty string. -/
def norm_th_py : PyVal → LChar
  | .strV s => normTh s
  | _ => []

/-- A code point below the surrogate range round-trips through `Char.ofNat`. -/
theorem charToNatOfNat (n : Nat) (h : n < 55296) : (Char.ofNat n).toNat = n := by
  simp [Char.ofNat, Nat.isValidChar, h, Char.ofNatAux, Char.toNat, UInt32.ofNat',
    UInt32.toNat, BitVec.toNat_ofNatLt]

/-- Upper-casing an ASCII letter yields an ASCII letter. -/
theorem toUpper_alpha (c : Char) (h : isAsciiAlphaB c = true) :
    isAsciiAlphaB (Char.toUpper c) = true := by
  simp only [isAsciiAlphaB, Bool.or_eq_true, Bool.and_eq_true, decide_eq_true_eq] at h ⊢
  simp only [Char.toUpper]
  by_cases hc : c.toNat ≥ 97 ∧ c.toNat ≤ 122
  · rw [if_pos hc, charToNatOfNat _ (by omega)]
    omega
  · rw [if_neg hc]
    omega

/-- An ASCII letter is not a decimal digit. -/
theorem alpha_not_digit (c : Char) (h : isAsciiAlphaB c = true) :
    isAsciiDigitB c = false := by
  simp only [isAsciiAlphaB, Bool.or_eq_true, Bool.and_eq_true, decide_eq_true_eq] at h
  simp only [isAsciiDigitB, Bool.and_eq_false_iff, decide_eq_false_iff_not]
  omega

/-- An ASCII letter is not the dot character. -/
theorem alpha_ne_dot (c : Char) (h : isAsciiAlphaB c = true) : c ≠ '.' := by
  intro he
  subst he
  simp [isAsciiAlphaB] at h

/-- The last element reported by `getLast?` is a member of the list. -/
theorem mem_of_getLastQ {α : Type _} : ∀ {l : List α} {a : α}, l.getLast? = some a → a ∈ l
  | [], a, h => by simp at h
  | [x], a, h => by
    simp only [List.getLast?_singleton, Option.some.injEq] at h
    simp [h]
  | x :: y :: t, a, h => by
    rw [List.getLast?_cons_cons] at h
    exact List.mem_cons_of_mem x (mem_of_getLastQ h)

/-- `getLast?` of a cons with a non-empty tail is the tail's. -/
theorem getLastQ_cons_of_ne_nil {α : Type _} (a : α) {t : List α} (h : t ≠ []) :
    (a :: t).getLast? = t.getLast? := by
  cases t with
  | nil => exact absurd rfl h
  | cons x xs => exact List.getLast?_cons_cons

/-- A successful `startsWith` decomposes the string. -/
theorem startsWith_decomp : ∀ (p s : LChar), startsWith s p = true → p ++ s.drop p.length = s
  | [], s, _ => rfl
  | b :: bs, [], h => by simp [startsWith] at h
  | b :: bs, a :: as, h => by
    simp only [startsWith, Bool.and_eq_true, decide_eq_true_eq] at h
    obtain ⟨hab, hrest⟩ := h
    subst hab
    simp only [List.cons_append, List.length_cons, List.drop_succ_cons]
    exact congrArg (a :: ·) (startsWith_decomp bs as hrest)

/-- `take (n+1)` of a non-empty list is non-empty. -/
theorem take_succ_ne_nil {α : Type _} {l : List α} (h : l ≠ []) (n : Nat) :
    l.take (n + 1) ≠ [] := by
  cases l with
  | nil => exact absurd rfl h
  | cons x xs => simp

/-- A name with an ASCII letter has a non-empty 2-letter abbreviation. -/
theorem twoLetterAbbr_ne_nil {nm : LChar} (h : nm.any isAsciiAlphaB = true) :
    twoLetterAbbr nm ≠ [] := by
  obtain ⟨x, hx, hpx⟩ := List.any_eq_true.1 h
  have hf : nm.filter isAsciiAlphaB ≠ [] :=
    List.ne_nil_of_mem (List.mem_filter.2 ⟨hx, hpx⟩)
  have ht : (nm.filter isAsciiAlphaB).take 2 ≠ [] := take_succ_ne_nil hf 1
  simp only [twoLetterAbbr, pyUpper, ne_eq, List.map_eq_nil_iff]
  exact ht

/-- Every character of the 2-letter abbreviation is an ASCII letter. -/
theorem twoLetterAbbr_alpha {nm : LChar} {c : Char} (h : c ∈ twoLetterAbbr nm) :
    isAsciiAlphaB c = true := by
  simp only [twoLetterAbbr, pyUpper, List.mem_map] at h
  obtain ⟨x, hx, hux⟩ := h
  have hxf : x ∈ nm.filter isAsciiAlphaB := List.mem_of_mem_take hx
  subst hux
  exact toUpper_alpha x (List.of_mem_filter hxf)

/-- A list containing a non-digit is not `isdigit`. -/
theorem pyIsDigitL_eq_false_of_mem {l : LChar} {c : Char} (hm : c ∈ l)
    (hc : isAsciiDigitB c = false) : pyIsDigitL l = false := by
  cases hall : l.all isAsciiDigitB with
  | false => simp [pyIsDigitL, hall]
  | true => exact absurd (List.all_eq_true.1 hall c hm) (by simp [hc])

/-- Replacing a pattern that ends in a character different from the last
character of the string (by the empty replacement) preserves that last
character. -/
theorem pyReplaceAux_getLast (old : LChar) (d : Char) (hold : old.getLast? = some d) :
    ∀ (fuel : Nat) (s : LChar) (c : Char), s.length ≤ fuel → s.getLast? = some c → c ≠ d →
      (pyReplaceAux old [] fuel s).getLast? = some c := by
  intro fuel
  induction fuel with
  | zero =>
    intro s c hlen hlast _
    have : s = [] := List.eq_nil_of_length_eq_zero (Nat.le_zero.1 hlen)
    subst this
    simp at hlast
  | succ fuel ih =>
    intro s c hlen hlast hne
    cases s with
    | nil => simp at hlast
    | cons a t =>
      by_cases hb : old ≠ [] ∧ startsWith (a :: t) old
      · rw [show pyReplaceAux old [] (fuel + 1) (a :: t)
            = [] ++ pyReplaceAux old [] fuel ((a :: t).drop old.length) by
              simp [pyReplaceAux, hb]]
        have hdec := startsWith_decomp old (a :: t) hb.2
        have holen : 1 ≤ old.length := by
          cases old with
          | nil => exact absurd rfl hb.1
          | cons _ _ => simp
        cases hrest : (a :: t).drop old.length with
        | nil =>
          rw [hrest, List.append_nil] at hdec
          rw [← hdec] at hlast
          rw [hold] at hlast
          exact absurd (Option.some.inj hlast).symm hne
        | cons r rs =>
          have hlen2 : ((a :: t).drop old.length).length ≤ fuel := by
            simp only [List.length_drop, List.length_cons] at *
            omega
          have hlast2 : ((a :: t).drop old.length).getLast? = some c := by
            rw [← hdec, List.getLast?_append_of_ne_nil old (by rw [hrest]; simp)] at hlast
            exact hlast
          rw [List.nil_append, hrest] at *
          rw [hrest] at hlen2 hlast2
          exact ih _ c hlen2 hlast2 hne
      · rw [show pyReplaceAux old [] (fuel + 1) (a :: t)
            = a :: pyReplaceAux old [] fuel t by simp [pyReplaceAux, hb]]
        cases t with
        | nil =>
          simp only [List.getLast?_singleton, Option.some.injEq] at hlast
          subst hlast
          simp [pyReplaceAux]
        | cons x xs =>
          have hlast2 : (x :: xs).getLast? = some c := by
            rw [← List.getLast?_cons_cons (a := a)]
            exact hlast
          have hrec := ih (x :: xs) c (by simp only [List.length_cons] at hlen ⊢; omega) hlast2 hne
          have hrne : pyReplaceAux old [] fuel (x :: xs) ≠ [] := by
            intro h0
            rw [h0] at hrec
            simp at hrec
          rw [getLastQ_cons_of_ne_nil a hrne]
          exact hrec

/-- `pyReplace` version of the last-character preservation lemma. -/
theorem pyReplace_getLast {old s : LChar} {c d : Char} (hold : old.getLast? = some d)
    (hs : s.getLast? = some c) (hne : c ≠ d) :
    (pyReplace s old []).getLast? = some c :=
  pyReplaceAux_getLast old d hold s.length s c (Nat.le_refl _) hs hne

/-- Membership in the de-duplication worker. -/
theorem mem_pyDedupAux : ∀ (l seen : List LChar) (x : LChar),
    x ∈ pyDedupAux seen l ↔ x ∈ l ∧ x ∉ seen
  | [], seen, x => by simp [pyDedupAux]
  | c :: cs, seen, x => by
    by_cases hc : c ∈ seen
    · rw [show pyDedupAux seen (c :: cs) = pyDedupAux seen cs by simp [pyDedupAux, hc]]
      rw [mem_pyDedupAux cs seen x]
      simp only [List.mem_cons]
      constructor
      · tauto
      · rintro ⟨h1 | h1, h2⟩
        · subst h1
          exact absurd hc h2
        · exact ⟨h1, h2⟩
    · rw [show pyDedupAux seen (c :: cs) = c :: pyDedupAux (c :: seen) cs by
        simp [pyDedupAux, hc]]
      simp only [List.mem_cons, mem_pyDedupAux cs (c :: seen) x]
      by_cases hxc : x = c
      · subst hxc
        simp [hc]
      · simp only [hxc, false_or]

/-- The de-duplication worker returns a list with no duplicates. -/
theorem pyDedupAux_nodup : ∀ (l seen : List LChar), (pyDedupAux seen l).Nodup
  | [], seen => by simp [pyDedupAux]
  | c :: cs, seen => by
    by_cases hc : c ∈ seen
    · rw [show pyDedupAux seen (c :: cs) = pyDedupAux seen cs by simp [pyDedupAux, hc]]
      exact pyDedupAux_nodup cs seen
    · rw [show pyDedupAux seen (c :: cs) = c :: pyDedupAux (c :: seen) cs by
        simp [pyDedupAux, hc]]
      refine List.nodup_cons.2 ⟨?_, pyDedupAux_nodup cs (c :: seen)⟩
      intro hmem
      exact ((mem_pyDedupAux cs (c :: seen) c).1 hmem).2 (List.mem_cons_self c seen)

/-- `pyDedup` returns a list with no duplicates. -/
theorem pyDedup_nodup (l : List LChar) : (pyDedup l).Nodup := pyDedupAux_nodup l []

/-- `pyDedup` preserves membership. -/
theorem mem_pyDedup (l : List LChar) (x : LChar) : x ∈ pyDedup l ↔ x ∈ l := by
  rw [pyDedup, mem_pyDedupAux l [] x]
  simp

/-- Inserting keeps the length. -/
theorem insertDescBy_length {α : Type _} (key : α → PyFloat) (x : α) :
    ∀ l : List α, (insertDescBy key x l).length = l.length + 1
  | [] => rfl
  | y :: ys => by
    by_cases h : fle (key y) (key x)
    · simp [insertDescBy, h]
    · simp [insertDescBy, h, insertDescBy_length key x ys]

/-- Sorting keeps the length. -/
theorem sortDescBy_length {α : Type _} (key : α → PyFloat) :
    ∀ l : List α, (sortDescBy key l).length = l.length
  | [] => rfl
  | x :: xs => by
    simp [sortDescBy, insertDescBy_length, sortDescBy_length key xs]

/-- The hazard-page fetch loop only appends the candidates it consumes. -/
theorem cie_try_loop_tried (env : Env) (country varP scen : LChar) :
    ∀ (cs tried : List LChar), ∃ pre rest, cs = pre ++ rest ∧
      (cie_try_loop env country varP scen cs tried).2.2 = tried ++ pre
  | [], tried => ⟨[], [], by simp, by simp [cie_try_loop]⟩
  | c :: cs, tried => by
    by_cases hdf : cie_fetch_df env country c varP scen = []
    · obtain ⟨pre, rest, h1, h2⟩ := cie_try_loop_tried env country varP scen cs (tried ++ [c])
      refine ⟨c :: pre, rest, by simp [h1], ?_⟩
      rw [show cie_try_loop env country varP scen (c :: cs) tried
          = cie_try_loop env country varP scen cs (tried ++ [c]) by
        simp [cie_try_loop, hdf]]
      rw [h2]
      simp
    · refine ⟨[c], cs, by simp, ?_⟩
      rw [show cie_try_loop env country varP scen (c :: cs) tried
          = (cie_fetch_df env country c varP scen, c, tried ++ [c]) by
        simp [cie_try_loop, hdf]]

/-- When the hazard-page fetch loop returns a non-empty dataframe, the
chosen candidate is the last tried one, its fetch is the returned
dataframe, and every earlier candidate (beyond those already accounted
for) fetched an empty dataframe. -/
theorem cie_try_loop_first_nonempty (env : Env) (country varP scen : LChar) :
    ∀ (cs tried : List LChar),
      (∀ c ∈ tried, cie_fetch_df env country c varP scen = []) →
      (cie_try_loop env country varP scen cs tried).1 ≠ [] →
      ((cie_try_loop env country varP scen cs tried).2.2).getLast?
          = some (cie_try_loop env country varP scen cs tried).2.1 ∧
        cie_fetch_df env country (cie_try_loop env country varP scen cs tried).2.1 varP scen
          = (cie_try_loop env country varP scen cs tried).1 ∧
        ∀ c ∈ ((cie_try_loop env country varP scen cs tried).2.2).dropLast,
          cie_fetch_df env country c varP scen = []
  | [], tried => by
    intro _ hne
    simp [cie_try_loop] at hne
  | c :: cs, tried => by
    intro hT hne
    by_cases hdf : cie_fetch_df env country c varP scen = []
    · rw [show cie_try_loop env country varP scen (c :: cs) tried
          = cie_try_loop env country varP scen cs (tried ++ [c]) by
        simp [cie_try_loop, hdf]] at hne ⊢
      refine cie_try_loop_first_nonempty env country varP scen cs (tried ++ [c]) ?_ hne
      intro d hd
      rcases List.mem_append.1 hd with h1 | h1
      · exact hT d h1
      · rw [List.mem_singleton.1 h1]
        exact hdf
    · rw [show cie_try_loop env country varP scen (c :: cs) tried
          = (cie_fetch_df env country c varP scen, c, tried ++ [c]) by
        simp [cie_try_loop, hdf]]
      refine ⟨List.getLast?_concat _, rfl, ?_⟩
      rw [List.dropLast_concat]
      exact hT

/-- The comparison-page fetch loop only appends the candidates it consumes. -/
theorem compare_try_loop_tried (env : Env) (country varP scen : LChar) :
    ∀ (cs tried : List LChar), ∃ pre rest, cs = pre ++ rest ∧
      (compare_try_loop env country varP scen cs tried).2.2 = tried ++ pre
  | [], tried => ⟨[], [], by simp, by simp [compare_try_loop]⟩
  | c :: cs, tried => by
    by_cases hdf : cie_fetch_df env country c varP scen = []
    · obtain ⟨pre, rest, h1, h2⟩ := compare_try_loop_tried env country varP scen cs (tried ++ [c])
      refine ⟨c :: pre, rest, by simp [h1], ?_⟩
      rw [show compare_try_loop env country varP scen (c :: cs) tried
          = compare_try_loop env country varP scen cs (tried ++ [c]) by
        simp [compare_try_loop, hdf]]
      rw [h2]
      simp
    · refine ⟨[c], cs, by simp, ?_⟩
      rw [show compare_try_loop env country varP scen (c :: cs) tried
          = (cie_fetch_df env country c varP scen, c, tried ++ [c]) by
        simp [compare_try_loop, hdf]]

/-- Every row `_search_level` returns carries the level it was labelled with. -/
theorem search_level_level (t : LevelTable) (lvl q : LChar) (exact : Bool) :
    ∀ x ∈ search_level t lvl q exact, x.level = lvl := by
  intro x hx
  simp only [search_level] at hx
  by_cases h : t.hasNameCol = false
  · simp [h] at hx
  · rw [if_neg h] at hx
    obtain ⟨r, _, hr⟩ := List.mem_map.1 hx
    rw [← hr]

/-- `firstHit` returns either the empty list or one of its inputs. -/
theorem firstHit_cases : ∀ ls : List (List HitRow),
    firstHit ls = [] ∨ ∃ h ∈ ls, firstHit ls = h
  | [] => Or.inl rfl
  | h :: t => by
    by_cases hh : h = []
    · rcases firstHit_cases t with h1 | ⟨l, hl, h2⟩
      · left
        simpa [firstHit, hh] using h1
      · right
        exact ⟨l, List.mem_cons_of_mem h hl, by simpa [firstHit, hh] using h2⟩
    · right
      exact ⟨h, List.mem_cons_self h t, by simp [firstHit, hh]⟩

/-- A provider environment in which only the region code `DE.BE` has data:
a non-empty columnar series whose median values are identically zero. -/
def envAllZero : Env :=
  ⟨[], [],
   (fun p =>
     if p.region = "DE.BE".data then
       .dictResp ⟨some [some (.ofInt 2020), some (.ofInt 2030)],
                  some [some (.ofInt 0), some (.ofInt 0)],
                  some [some (.ofInt 0), some (.ofInt 0)],
                  some [some (.ofInt 0), some (.ofInt 0)], none⟩
     else .failure),
   fun _ => []⟩

/-- The RegionInfo of a Berlin-like selection
(code `DE.BE`, country `DE`/`DEU`, name `Berlin`). -/
def infoBerlin : RegionInfo := ⟨"DE.BE".data, "DE".data, "DEU".data, "Berlin".data⟩

/-- Tables for a Germany/Bavaria resolution: one ADM0 row and one ISO
subdivision `DE-BY` (Bayern); the network returns nothing. -/
def envGermany : Env :=
  ⟨[⟨"Germany".data, "DEU".data, "DE".data⟩],
   [⟨some "DE-BY".data, "Bayern".data, none⟩],
   fun _ => .failure, fun _ => []⟩

/-- A selected row naming Bavaria inside Germany, with no ISO3 cell. -/
def rowBavaria : AdmRowDict := ⟨none, some "Germany".data, some "Bayern".data, none⟩

/-- An environment with empty tables and a dead network. -/
def envEmptyNet : Env := ⟨[], [], fun _ => .failure, fun _ => []⟩

/-- A RegionInfo whose resolved code equals its ISO3 country code and whose
ISO2 code is empty (a country-level resolution with no ISO2 row). -/
def infoPortugal : RegionInfo := ⟨"PRT".data, [], "PRT".data, []⟩

/-- An ISO subdivision table with exactly one entry, named `district`. -/
def entriesDistrict : List IsoEntry := [⟨some "XX-1".data, "district".data, none⟩]

/-- An ISO subdivision table with exactly one Austrian entry. -/
def entriesVienna : List IsoEntry := [⟨some "AT-9".data, "Wien".data, none⟩]

/-- Administrative tables with a district and a region both named Lisboa
and a country named Portugal. -/
def envLisbon : EnvTh :=
  ⟨⟨true, [⟨some "Portugal".data⟩]⟩,
   ⟨true, [⟨some "Lisboa".data⟩]⟩,
   ⟨true, [⟨some "Lisboa".data⟩]⟩⟩

/-- Claim C10: the region parameter `get_cie_band` sends to the provider is
the candidate with hyphens replaced by dots, upper-cased and stripped, so
two candidates that agree after hyphen-to-dot replacement and upper-casing
produce identical provider queries. -/
theorem c10_region_param_normalized (iso varP scen c1 c2 : LChar)
    (h : pyUpper (pyReplace c1 ['-'] ['.']) = pyUpper (pyReplace c2 ['-'] ['.'])) :
    (cie_params iso c1 varP scen "annual".data "area".data).region
        = pyStrip (pyUpper (pyReplace c1 ['-'] ['.'])) ∧
      cie_params iso c1 varP scen "annual".data "area".data
        = cie_params iso c2 varP scen "annual".data "area".data := by
  refine ⟨rfl, ?_⟩
  simp only [cie_params, cie_region_norm, h]

/-- Witness for C10 at the concrete pair `DE-BE` / `de.be`. -/
theorem c10_region_param_normalized_witness :
    pyUpper (pyReplace "DE-BE".data ['-'] ['.'])
        = pyUpper (pyReplace "de.be".data ['-'] ['.']) ∧
      cie_params "DEU".data "DE-BE".data "leh".data "h_cpol".data "annual".data "area".data
        = cie_params "DEU".data "de.be".data "leh".data "h_cpol".data "annual".data "area".data :=
  ⟨by decide,
   (c10_region_param_normalized "DEU".data "leh".data "h_cpol".data "DE-BE".data "de.be".data
     (by decide)).2⟩

/-- Claim C8: resolution is deterministic — two calls of
`resolve_cie_region_code` on equal rows, against the same cached tables,
return the same ISO3 code and the same region code. -/
theorem c8_resolve_deterministic (env : Env) (r1 r2 : AdmRowDict) (h : r1 = r2) :
    (resolve_cie_region_code env r1).1 = (resolve_cie_region_code env r2).1 ∧
      (resolve_cie_region_code env r1).2.1 = (resolve_cie_region_code env r2).2.1 := by
  subst h
  exact ⟨rfl, rfl⟩

/-- Witness for C8 on the Bavaria row. -/
theorem c8_resolve_deterministic_witness :
    rowBavaria = rowBavaria ∧
      (resolve_cie_region_code envGermany rowBavaria).2.1
        = (resolve_cie_region_code envGermany rowBavaria).2.1 :=
  ⟨rfl, (c8_resolve_deterministic envGermany rowBavaria rowBavaria rfl).2⟩

/-- Claim C6 counterexample: the `api/iso_map.py` normalizer is NOT total
on non-string input — a truthy non-string such as the integer 5 reaches
`unicodedata.normalize` and raises TypeError instead of yielding the
empty string. -/
theorem c6_iso_norm_raises :
    norm_iso_py (PyVal.intV 5) = .error () ∧ isStrB (PyVal.intV 5) = false :=
  ⟨rfl, rfl⟩

/-- Claim C6 (amended): the `api/thinkhazard.py` normalizer is total and
maps every non-string to the empty string; the `api/iso_map.py` normalizer
maps falsy non-strings to the empty string via `s or ""` and succeeds on
every string, but raises on truthy non-strings. -/
theorem c6_normalizer_totality (v : PyVal) :
    (isStrB v = false → norm_th_py v = []) ∧
      (pyTruthy v = false → norm_iso_py v = .ok []) ∧
      (∀ s, v = PyVal.strV s → norm_iso_py v = .ok (normIso s) ∧ norm_th_py v = normTh s) := by
  refine ⟨?_, ?_, ?_⟩
  · intro h
    cases v with
    | strV s => simp [isStrB] at h
    | intV n => rfl
    | noneV => rfl
  · intro h
    cases v with
    | strV s =>
      have hs : s = [] := by
        simpa [pyTruthy, List.isEmpty_iff] using h
      subst hs
      rfl
    | intV n =>
      have hn : n = 0 := by simpa [pyTruthy] using h
      subst hn
      rfl
    | noneV => rfl
  · intro s hv
    subst hv
    constructor
    · by_cases hs : s = []
      · subst hs
        rfl
      · simp only [norm_iso_py, pyTruthy]
        rw [if_pos (by simpa [List.isEmpty_iff] using hs)]
    · rfl

/-- Witness for C6 (amended) at `None` and at a concrete string. -/
theorem c6_normalizer_totality_witness :
    isStrB PyVal.noneV = false ∧ norm_th_py PyVal.noneV = [] ∧
      PyVal.strV "Wien".data = PyVal.strV "Wien".data ∧
      norm_iso_py (PyVal.strV "Wien".data) = .ok (normIso "Wien".data) :=
  ⟨rfl, (c6_normalizer_totality PyVal.noneV).1 rfl, rfl,
   ((c6_normalizer_totality (PyVal.strV "Wien".data)).2.2 "Wien".data rfl).1⟩

/-- Claim C7 counterexample: with a query normalizing to the empty string,
`fuzzy_match_region` returns the empty list even though the country has a
subdivision entry — the top-3 fallback is never reached, so the caller
does not always receive a non-empty best-effort result. -/
theorem c7_empty_query_no_fallback :
    fuzzy_match_region entriesVienna [] "AT".data 85 = [] ∧
      filter_country_entries "AT".data entriesVienna ≠ [] :=
  ⟨by decide, by decide⟩

/-- Claim C7 (amended): whenever the normalized query is non-empty and the
country has at least one subdivision entry, `fuzzy_match_region` returns a
non-empty list — via the threshold branch when something scored, else via
the unbiased top-3 fallback. -/
theorem c7_fallback_nonempty (entries : List IsoEntry) (name iso2 : LChar) (thr : Int)
    (hq : normIso name ≠ [])
    (he : filter_country_entries iso2 entries ≠ []) :
    fuzzy_match_region entries name iso2 thr ≠ [] := by
  unfold fuzzy_match_region
  rw [if_neg (by simp [hq, he])]
  by_cases hsc : sortDescBy (fun t => t.2.2)
      ((fuzzy_scored_raw (filter_country_entries iso2 entries) (normIso name) thr).map biasTuple)
      = []
  · rw [if_pos hsc]
    have hlen : (fuzzy_rough (filter_country_entries iso2 entries) (normIso name)).length
        = (filter_country_entries iso2 entries).length := by
      simp [fuzzy_rough, sortDescBy_length]
    have hne : fuzzy_rough (filter_country_entries iso2 entries) (normIso name) ≠ [] := by
      intro h0
      rw [h0] at hlen
      exact he (List.eq_nil_of_length_eq_zero hlen.symm)
    exact take_succ_ne_nil hne 2
  · rw [if_neg hsc]
    exact hsc

/-- Witness for C7 (amended) on the Vienna query. -/
theorem c7_fallback_nonempty_witness :
    normIso "Wien".data ≠ [] ∧ filter_country_entries "AT".data entriesVienna ≠ [] ∧
      fuzzy_match_region entriesVienna "Wien".data "AT".data 85 ≠ [] :=
  ⟨by decide, by decide,
   c7_fallback_nonempty entriesVienna "Wien".data "AT".data 85 (by decide) (by decide)⟩

/-- Claim C5: `find_division` stops at the first level (district, region,
country, in that order) with a hit: when the exact district search is
non-empty it is returned as-is, labelled ADM2 throughout, and the
substring passes run only when exact matching failed at all three
levels. -/
theorem c5_first_level_wins (env : EnvTh) (name : LChar) :
    (search_level env.adm2 "ADM2".data (normTh name) true ≠ [] →
      find_division env name = search_level env.adm2 "ADM2".data (normTh name) true ∧
        ∀ x ∈ find_division env name, x.level = "ADM2".data) ∧
      (search_level env.adm2 "ADM2".data (normTh name) true = [] →
        search_level env.adm1 "ADM1".data (normTh name) true = [] →
          search_level env.adm0 "ADM0".data (normTh name) true = [] →
            find_division env name =
              firstHit [search_level env.adm2 "ADM2".data (normTh name) false,
                        search_level env.adm1 "ADM1".data (normTh name) false,
                        search_level env.adm0 "ADM0".data (normTh name) false]) := by
  constructor
  · intro h2
    have heq : find_division env name = search_level env.adm2 "ADM2".data (normTh name) true := by
      simp only [find_division]
      rw [show firstHit [search_level env.adm2 "ADM2".data (normTh name) true,
            search_level env.adm1 "ADM1".data (normTh name) true,
            search_level env.adm0 "ADM0".data (normTh name) true]
          = search_level env.adm2 "ADM2".data (normTh name) true by simp [firstHit, h2]]
      cases hcase : search_level env.adm2 "ADM2".data (normTh name) true with
      | nil => exact absurd hcase h2
      | cons a t => rfl
    refine ⟨heq, ?_⟩
    rw [heq]
    exact search_level_level env.adm2 "ADM2".data (normTh name) true
  · intro h2 h1 h0
    simp only [find_division]
    rw [show firstHit [search_level env.adm2 "ADM2".data (normTh name) true,
          search_level env.adm1 "ADM1".data (normTh name) true,
          search_level env.adm0 "ADM0".data (normTh name) true] = [] by
      simp [firstHit, h2, h1, h0]]

/-- Witness for C5 on the Lisboa tables (Lisboa is both a district and a
region name; only the district rows come back). -/
theorem c5_first_level_wins_witness :
    search_level envLisbon.adm2 "ADM2".data (normTh "Lisboa".data) true ≠ [] ∧
      find_division envLisbon "Lisboa".data
        = search_level envLisbon.adm2 "ADM2".data (normTh "Lisboa".data) true :=
  ⟨by decide, ((c5_first_level_wins envLisbon "Lisboa".data).1 (by decide)).1⟩

/-- Claim C9: a non-empty `find_division` result carries a single level
value on every row — never a mixture of ADM2/ADM1/ADM0 rows. -/
theorem c9_uniform_level (env : EnvTh) (name : LChar)
    (h : find_division env name ≠ []) :
    ∃ l, ∀ x ∈ find_division env name, x.level = l := by
  have hcases : find_division env name = [] ∨
      ∃ t l e, find_division env name = search_level t l (normTh name) e := by
    simp only [find_division]
    cases hm : firstHit [search_level env.adm2 "ADM2".data (normTh name) true,
        search_level env.adm1 "ADM1".data (normTh name) true,
        search_level env.adm0 "ADM0".data (normTh name) true] with
    | cons a t =>
      rcases firstHit_cases [search_level env.adm2 "ADM2".data (normTh name) true,
          search_level env.adm1 "ADM1".data (normTh name) true,
          search_level env.adm0 "ADM0".data (normTh name) true] with hf | hex
      · rw [hf] at hm
        exact absurd hm.symm (List.cons_ne_nil a t)
      · obtain ⟨lh, hlh, hf⟩ := hex
        rw [hm] at hf
        right
        simp only [List.mem_cons, List.not_mem_nil, or_false] at hlh
        rcases hlh with h3 | h3 | h3
        · exact ⟨env.adm2, "ADM2".data, true, hf.trans h3⟩
        · exact ⟨env.adm1, "ADM1".data, true, hf.trans h3⟩
        · exact ⟨env.adm0, "ADM0".data, true, hf.trans h3⟩
    | nil =>
      rcases firstHit_cases [search_level env.adm2 "ADM2".data (normTh name) false,
          search_level env.adm1 "ADM1".data (normTh name) false,
          search_level env.adm0 "ADM0".data (normTh name) false] with hf | hex
      · left
        exact hf
      · obtain ⟨lh, hlh, hf⟩ := hex
        right
        simp only [List.mem_cons, List.not_mem_nil, or_false] at hlh
        rcases hlh with h3 | h3 | h3
        · exact ⟨env.adm2, "ADM2".data, false, hf.trans h3⟩
        · exact ⟨env.adm1, "ADM1".data, false, hf.trans h3⟩
        · exact ⟨env.adm0, "ADM0".data, false, hf.trans h3⟩
  rcases hcases with h0 | ⟨t, l, e, heq⟩
  · exact absurd h0 h
  · refine ⟨l, ?_⟩
    rw [heq]
    exact search_level_level t l (normTh name) e

/-- Witness for C9 on the Lisboa tables. -/
theorem c9_uniform_level_witness :
    find_division envLisbon "Lisboa".data ≠ [] ∧
      ∃ l, ∀ x ∈ find_division envLisbon "Lisboa".data, x.level = l :=
  ⟨by decide, c9_uniform_level envLisbon "Lisboa".data (by decide)⟩

/-- Claim C4 counterexample: the comparison-tool `load_cie` builds its
cascade WITHOUT de-duplication; for a country-level RegionInfo whose code
equals the ISO3 code and whose ISO2 code is empty, the returned
`all_candidates_tried` list repeats both `PRT` and the empty string. -/
theorem c4_compare_tried_duplicates :
    (load_cie_compare envEmptyNet infoPortugal "leh".data "h_cpol".data).2.2
        = ["PRT".data, "PRT".data, [], []] ∧
      ¬ ((load_cie_compare envEmptyNet infoPortugal "leh".data "h_cpol".data).2.2).Nodup :=
  ⟨by decide, by decide⟩

/-- Claim C4 (amended): the hazard-page `load_cie` cascade is de-duplicated
keeping first occurrences, so its tried list is duplicate-free and a
generation-ordered prefix of the cascade, and the empty string is always a
cascade member; the comparison-tool `load_cie` does not de-duplicate. -/
theorem c4_hazard_tried_nodup (env : Env) (info : RegionInfo) (varP scen : LChar) :
    ((load_cie_hazard env info varP scen).2.2).Nodup ∧
      (∃ rest, hazard_candidates env info
        = (load_cie_hazard env info varP scen).2.2 ++ rest) ∧
      (hazard_candidates env info).Nodup ∧
      [] ∈ hazard_candidates env info := by
  obtain ⟨pre, rest, h1, h2⟩ :=
    cie_try_loop_tried env (hazard_country info) varP scen (hazard_candidates env info) []
  have htried : (load_cie_hazard env info varP scen).2.2 = pre := by
    rw [show (load_cie_hazard env info varP scen).2.2
        = (cie_try_loop env (hazard_country info) varP scen
            (hazard_candidates env info) []).2.2 from rfl, h2]
    simp
  have hcnodup : (hazard_candidates env info).Nodup := pyDedup_nodup _
  refine ⟨?_, ⟨rest, by rw [htried, ← h1]⟩, hcnodup, ?_⟩
  · rw [htried]
    rw [h1] at hcnodup
    exact hcnodup.sublist (List.sublist_append_left pre rest)
  · rw [hazard_candidates, mem_pyDedup]
    simp [hazard_candidates_raw]

/-- Claim C1 counterexample: the candidate `DE.BE` answers with a NON-EMPTY
series whose values are identically zero, yet the hazard-page fetch
accepts it and stops — the tried list ends right there although four more
cascade candidates remained — instead of skipping it like an empty
result. -/
theorem c1_allzero_candidate_accepted :
    (load_cie_hazard envAllZero infoBerlin "leh".data "h_cpol".data).2.1 = "DE.BE".data ∧
      (load_cie_hazard envAllZero infoBerlin "leh".data "h_cpol".data).1 ≠ [] ∧
      is_all_zero (load_cie_hazard envAllZero infoBerlin "leh".data "h_cpol".data).1 = true ∧
      (load_cie_hazard envAllZero infoBerlin "leh".data "h_cpol".data).2.2 = ["DE.BE".data] ∧
      (hazard_candidates envAllZero infoBerlin).length = 5 :=
  ⟨by decide, by decide, by decide, by decide, by decide⟩

/-- Claim C1 (amended): the fetch stops at the first candidate whose query
returns a non-empty series, whether or not its values are all zero: when
`load_cie` returns a non-empty dataframe, the chosen candidate is the last
tried one, its fetch result is the returned dataframe, and every earlier
tried candidate fetched empty.  All-zero detection happens only at page
level, outside the cascade. -/
theorem c1_fetch_stops_at_first_nonempty (env : Env) (info : RegionInfo) (varP scen : LChar)
    (h : (load_cie_hazard env info varP scen).1 ≠ []) :
    ((load_cie_hazard env info varP scen).2.2).getLast?
        = some (load_cie_hazard env info varP scen).2.1 ∧
      cie_fetch_df env (hazard_country info) (load_cie_hazard env info varP scen).2.1 varP scen
        = (load_cie_hazard env info varP scen).1 ∧
      ∀ c ∈ ((load_cie_hazard env info varP scen).2.2).dropLast,
        cie_fetch_df env (hazard_country info) c varP scen = [] :=
  cie_try_loop_first_nonempty env (hazard_country info) varP scen
    (hazard_candidates env info) [] (by simp) h

/-- Witness for C1 (amended) on the all-zero Berlin environment. -/
theorem c1_fetch_stops_at_first_nonempty_witness :
    (load_cie_hazard envAllZero infoBerlin "leh".data "h_cpol".data).1 ≠ [] ∧
      ((load_cie_hazard envAllZero infoBerlin "leh".data "h_cpol".data).2.2).getLast?
        = some (load_cie_hazard envAllZero infoBerlin "leh".data "h_cpol".data).2.1 :=
  ⟨by decide,
   (c1_fetch_stops_at_first_nonempty envAllZero infoBerlin "leh".data "h_cpol".data
     (by decide)).1⟩

/-- Claim C2 counterexample: for the query `distri` against the single
entry named `district` (raw token-sort score 600/7 ~ 85.7, above the
threshold 85), the -5 district bias drops the biased score to 80, below
the threshold — yet the candidate IS returned.  The threshold is applied
to the raw score before the bias, not to the biased score. -/
theorem c2_biased_score_below_threshold :
    fuzzy_match_region entriesDistrict "distri".data "XX".data 85
        = [("XX-1".data, "district".data, PyFloat.ofInt 80)] ∧
      fle (PyFloat.ofInt 85) (PyFloat.ofInt 80) = false :=
  ⟨by decide, by decide⟩

/-- Claim C2 (amended): `fuzzy_match_region` keeps exactly the candidates
whose RAW (pre-bias) token-sort score meets the threshold, then applies
the keyword bias, truncates to int and sorts those kept tuples descending
by biased score with the stable sort (ties keep iteration order); every
kept tuple's raw score meets the threshold. -/
theorem c2_threshold_on_raw_score (entries : List IsoEntry) (name iso2 : LChar) (thr : Int)
    (hq : normIso name ≠ [])
    (hs : fuzzy_scored_raw (filter_country_entries iso2 entries) (normIso name) thr ≠ []) :
    fuzzy_match_region entries name iso2 thr
        = sortDescBy (fun t => t.2.2)
            ((fuzzy_scored_raw (filter_country_entries iso2 entries) (normIso name) thr).map
              biasTuple) ∧
      ∀ t ∈ fuzzy_scored_raw (filter_country_entries iso2 entries) (normIso name) thr,
        fle (PyFloat.ofInt thr) t.2.2 = true := by
  have he : filter_country_entries iso2 entries ≠ [] := by
    intro h0
    rw [h0] at hs
    exact hs rfl
  constructor
  · unfold fuzzy_match_region
    rw [if_neg (by simp [hq, he])]
    rw [if_neg ?hno]
    case hno =>
      intro h0
      have hlen := congrArg List.length h0
      rw [sortDescBy_length, List.length_map] at hlen
      exact hs (List.eq_nil_of_length_eq_zero hlen)
  · intro t ht
    obtain ⟨p, hp, hsome⟩ := List.mem_filterMap.1 ht
    by_cases hcond :
        fle (PyFloat.ofInt thr) (tokenSortScore (normIso name) (normIso p.2)) = true
    · simp only [hcond, if_true] at hsome
      rw [← Option.some.inj hsome]
      exact hcond
    · simp only [Bool.not_eq_true] at hcond
      simp [hcond] at hsome

/-- Witness for C2 (amended) on the `distri` query. -/
theorem c2_threshold_on_raw_score_witness :
    normIso "distri".data ≠ [] ∧
      fuzzy_scored_raw (filter_country_entries "XX".data entriesDistrict)
        (normIso "distri".data) 85 ≠ [] ∧
      ∀ t ∈ fuzzy_scored_raw (filter_country_entries "XX".data entriesDistrict)
          (normIso "distri".data) 85,
        fle (PyFloat.ofInt 85) t.2.2 = true :=
  ⟨by decide, by decide,
   (c2_threshold_on_raw_score entriesDistrict "distri".data "XX".data 85 (by decide)
     (by decide)).2⟩

/-- A code of the shape `<iso2>.<abbr>` with a non-empty alphabetic
abbreviation never has a purely numeric suffix after stripping the
`<iso2>.` pattern: the final abbreviation letter survives the stripping. -/
theorem abbr_code_suffix_not_digit (iso2s best : LChar)
    (halpha : best.any isAsciiAlphaB = true) :
    pyIsDigitL (pyReplace (iso2s ++ '.' :: twoLetterAbbr best) (iso2s ++ ['.']) []) = false := by
  have habne : twoLetterAbbr best ≠ [] := twoLetterAbbr_ne_nil halpha
  obtain ⟨u, hu⟩ := Option.isSome_iff_exists.1 (List.getLast?_isSome.2 habne)
  have hualpha : isAsciiAlphaB u = true := twoLetterAbbr_alpha (mem_of_getLastQ hu)
  have hcodelast : (iso2s ++ '.' :: twoLetterAbbr best).getLast? = some u := by
    rw [List.getLast?_append_of_ne_nil iso2s (List.cons_ne_nil '.' _),
      getLastQ_cons_of_ne_nil '.' habne]
    exact hu
  have holdlast : (iso2s ++ ['.']).getLast? = some '.' := List.getLast?_concat iso2s
  have hsuf := pyReplace_getLast holdlast hcodelast (alpha_ne_dot u hualpha)
  exact pyIsDigitL_eq_false_of_mem (mem_of_getLastQ hsuf) (alpha_not_digit u hualpha)

/-- Claim C3 counterexample: for the Bavaria row, `resolve` returns the
fuzzy-matched code `DE.BY`, whose suffix `BY` contains letters and is
correctly kept — but the RegionInfo built from the same row carries
`DE.BA` instead: `_normalize_region_code` replaced the letter suffix with
an abbreviation of the ADM1 name, so a letter suffix is NOT kept in the
RegionInfo code. -/
theorem c3_letter_suffix_replaced :
    (resolve_cie_region_code envGermany rowBavaria).2.1 = some "DE.BY".data ∧
      (build_region_info envGermany rowBavaria).code = "DE.BA".data ∧
      "DE.BA".data ≠ "DE.BY".data :=
  ⟨by decide, by decide, by decide⟩

/-- Claim C3 (amended): within `resolve_cie_region_code` itself the claim
holds — whenever resolution succeeds and the match target contains at
least one (ASCII) letter, the returned region code never has a purely
numeric suffix after the country prefix: a numeric fuzzy suffix is
replaced by the 2-letter abbreviation, and a letter suffix is kept.  The
RegionInfo code derived by `build_region_info` does not preserve letter
suffixes (see the counterexample). -/
theorem c3_resolve_suffix_not_numeric (env : Env) (r : AdmRowDict) (iso3v code : LChar)
    (hres : resolve_cie_region_code env r = (some iso3v, some code, none))
    (halpha : (resolve_best_name r).any isAsciiAlphaB = true) :
    pyIsDigitL (pyReplace code (resolve_iso2_str env iso3v ++ ['.']) []) = false := by
  have habne : twoLetterAbbr (resolve_best_name r) ≠ [] := twoLetterAbbr_ne_nil halpha
  unfold resolve_cie_region_code at hres
  cases h3 : resolve_iso3 env r with
  | none =>
    rw [h3] at hres
    simp at hres
  | some iv =>
    rw [h3] at hres
    by_cases hiv : iv = []
    · simp only [hiv, if_true, Prod.mk.injEq] at hres
      exact absurd hres.1 (by simp)
    · simp only [hiv, if_false, if_neg hiv] at hres
      cases htop : (if resolve_best_name r = [] then []
          else fuzzy_match_region env.isoEntries (resolve_best_name r)
            (resolve_iso2_str env iv) 80) with
      | nil =>
        rw [htop] at hres
        simp only [Prod.mk.injEq, Option.some.injEq] at hres
        obtain ⟨hiv3, hcode, -⟩ := hres
        subst hiv3
        rw [if_neg habne] at hcode
        rw [← hcode]
        exact abbr_code_suffix_not_digit _ _ halpha
      | cons t rest =>
        rw [htop] at hres
        by_cases hrc : pyUpper t.1 = []
        · simp only [hrc, if_true, Prod.mk.injEq, Option.some.injEq] at hres
          obtain ⟨hiv3, hcode, -⟩ := hres
          subst hiv3
          rw [if_neg habne] at hcode
          rw [← hcode]
          exact abbr_code_suffix_not_digit _ _ halpha
        · simp only [if_neg hrc] at hres
          by_cases hdig : pyIsDigitL (pyReplace (pyReplace (pyUpper t.1) ['-'] ['.'])
              (resolve_iso2_str env iv ++ ['.']) []) = true
          · simp only [hdig, if_true, if_neg habne, Prod.mk.injEq, Option.some.injEq] at hres
            obtain ⟨hiv3, hcode, -⟩ := hres
            subst hiv3
            rw [← hcode]
            exact abbr_code_suffix_not_digit _ _ halpha
          · simp only [Bool.not_eq_true] at hdig
            simp only [hdig, Bool.false_eq_true, if_false, Prod.mk.injEq,
              Option.some.injEq] at hres
            obtain ⟨hiv3, hcode, -⟩ := hres
            subst hiv3
            rw [← hcode]
            exact hdig

/-- Witness for C3 (amended) on the Bavaria resolution. -/
theorem c3_resolve_suffix_not_numeric_witness :
    resolve_cie_region_code envGermany rowBavaria
        = (some "DEU".data, some "DE.BY".data, none) ∧
      (resolve_best_name rowBavaria).any isAsciiAlphaB = true ∧
      pyIsDigitL (pyReplace "DE.BY".data (resolve_iso2_str envGermany "DEU".data ++ ['.'])
        []) = false :=
  ⟨by decide, by decide,
   c3_resolve_suffix_not_numeric envGermany rowBavaria "DEU".data "DE.BY".data (by decide)
     (by decide)⟩
